import Mathlib

/-!
Verification development for the go-ipp-file-print repository: a daemon that
watches `<root>/upload`, submits each document file to an IPP print service,
and renames the file into `<root>/printed` or `<root>/failed` with a date
(and, on success, job-id) prefix.

The repository ships several variants of `IppPrinterManager.Print`:
  * the `PrintDocuments` variant (multi-document, stat/open before submission,
    failed destination separator `_`),
  * the `PrintFile` variants (failed destination separator `/`),
  * the `printPdf` variant in main.go (PDF re-rendering, failed separator `_`).
Strings are modelled as `List Char`; Go's `strings.Replace(s, old, new, 1)`,
`path.Base`, `filepath.Ext` and `maps.Copy` are embedded directly below.
-/

/-- Paths and path fragments, modelled as lists of characters. -/
abbrev Str := List Char

/-- Coerce a literal to the `List Char` model. -/
def str (s : String) : Str := s.toList

/-- Go `strings.Replace(s, old, new, 1)`: replace the first occurrence of
`old` in `s` by `new`; `s` is returned unchanged when `old` does not occur.
(Go inserts `new` in front when `old` is empty.) -/
def replaceFirst (old new : Str) : Str → Str
  | [] => if old = [] then new else []
  | c :: rest =>
    if old.isPrefixOf (c :: rest) then new ++ (c :: rest).drop old.length
    else c :: replaceFirst old new rest

/-- Whether `old` occurs as a contiguous segment of `s`
(Go `strings.Contains`). -/
def containsSeg (old : Str) : Str → Bool
  | [] => old.isEmpty
  | c :: rest => old.isPrefixOf (c :: rest) || containsSeg old rest

/-- Split `s` at the first occurrence of `old`: returns the part before and
the part after that occurrence, or `none` when `old` does not occur. -/
def splitFirst (old : Str) : Str → Option (Str × Str)
  | [] => if old = [] then some ([], []) else none
  | c :: rest =>
    if old.isPrefixOf (c :: rest) then some ([], (c :: rest).drop old.length)
    else
      match splitFirst old rest with
      | some (pre, suf) => some (c :: pre, suf)
      | none => none

/-- Go `path.Base` step 1: strip trailing `/` characters. -/
def dropTrailingSlashes (s : Str) : Str :=
  (s.reverse.dropWhile (fun c => c = '/')).reverse

/-- Go `path.Base` step 2: the part after the last `/`. -/
def lastElem (s : Str) : Str :=
  (s.reverse.takeWhile (fun c => ¬ (c = '/'))).reverse

/-- Go `path.Base`: the last element of a slash-separated path. -/
def pathBase (s : Str) : Str :=
  if s = [] then str "."
  else if dropTrailingSlashes s = [] then str "/"
  else lastElem (dropTrailingSlashes s)

/-- Go `filepath.Ext`: the suffix of the final path element starting at its
final dot, empty if the final element has no dot. -/
def filepathExt (s : Str) : Str :=
  let last := lastElem s
  let tail := (last.reverse.takeWhile (fun c => ¬ (c = '.'))).reverse
  if tail.length = last.length then [] else '.' :: tail

/-- The allow-list of the extension filter, from the regular expression
`(?i)\.(pdf|png|jpg|jpeg|pwg|pcl)$` in every `Print` variant. -/
def allowedSuffixes : List Str :=
  [str ".pdf", str ".png", str ".jpg", str ".jpeg", str ".pwg", str ".pcl"]

/-- Case-insensitive suffix match, the semantics of the anchored
case-insensitive regular expression on ASCII paths. -/
def endsWithCI (suffix s : Str) : Bool :=
  (suffix.map Char.toLower).isSuffixOf (s.map Char.toLower)

/-- The extension filter of `Print`: does the path match
`(?i)\.(pdf|png|jpg|jpeg|pwg|pcl)$`? -/
def accepts (s : Str) : Bool :=
  allowedSuffixes.any (fun suffix => endsWithCI suffix s)

/-- The pdf test of main.go's `Print`: `(?i)\.pdf$`. -/
def isPdfName (s : Str) : Bool := endsWithCI (str ".pdf") s

/-- The replaced segment in both destination computations. -/
def uploadSeg : Str := str "/upload/"

/-- Decimal rendering of the job id (Go `%d` on a non-negative int). -/
def natStr (n : Nat) : Str := (toString n).toList

/-- Success destination, identical in every variant:
`strings.Replace(file, "/upload/", "/printed/<date>_<jId>_", 1)`. -/
def printedDest (today : Str) (jId : Nat) (file : Str) : Str :=
  replaceFirst uploadSeg (str "/printed/" ++ today ++ str "_" ++ natStr jId ++ str "_") file

/-- Failure destination of main.go and the `PrintDocuments` variant:
`strings.Replace(file, "/upload/", "/failed/<date>_", 1)`. -/
def failedDestUnderscore (today : Str) (file : Str) : Str :=
  replaceFirst uploadSeg (str "/failed/" ++ today ++ str "_") file

/-- Failure destination of the `PrintFile` variants:
`strings.Replace(file, "/upload/", "/failed/<date>/", 1)`. -/
def failedDestSlash (today : Str) (file : Str) : Str :=
  replaceFirst uploadSeg (str "/failed/" ++ today ++ str "/") file

/-! ## Job attributes (Go `map[string]any`, `maps.Copy`) -/

/-- Values of the job-attribute map (`any` in Go; JSON-decoded strings or
numbers in this program). -/
inductive AttrVal where
  | strV (s : Str)
  | numV (n : Nat)
deriving DecidableEq

/-- A Go `map[string]any`, as a partial function from keys to values. -/
abbrev AttrMap := Str → Option AttrVal

/-- The empty map. -/
def emptyAttrs : AttrMap := fun _ => none

/-- Go map write `m[k] = v` (also the one-entry map literal). -/
def setAttr (m : AttrMap) (k : Str) (v : AttrVal) : AttrMap :=
  fun q => if q = k then some v else m q

/-- Go `maps.Copy(dst, src)`: every key of `src` is written into `dst`,
overwriting any entry already present in `dst`. -/
def mapsCopy (dst src : AttrMap) : AttrMap :=
  fun k =>
    match src k with
    | some v => some v
    | none => dst k

/-- `ipp.AttributeJobName`. -/
def attributeJobName : Str := str "job-name"

/-- The job-attribute merge of the `PrintDocuments` variant:
`ja := map[string]any{ipp.AttributeJobName: fileName}` followed by
`maps.Copy(ja, i.defaultJobAttrs)`. -/
def mergedJobAttrs (defaults : AttrMap) (fileName : Str) : AttrMap :=
  mapsCopy (setAttr emptyAttrs attributeJobName (AttrVal.strV fileName)) defaults

/-! ## The `Print` method, one embedding per variant

Effects of a single `Print` call are recorded explicitly: the error value
returned to the caller, every attempted `os.Rename` (source, destination) in
order, the job-attribute maps of protocol submissions, the paths handed to
`printPdf` in the main.go variant, and the `os.Stat` / `os.Open` calls.
External outcomes (stat, open, protocol submission, rename) are inputs,
supplied by an environment, with errors modelled as numeric codes. -/

/-- Observable outcome and effect trace of one `Print` call. -/
structure PrintOut where
  ret : Option Nat
  renames : List (Str × Str)
  submitted : List AttrMap
  pdfCalls : List Str
  statCalls : Nat
  openCalls : Nat

/-- The trace of the early `return nil` on a filtered-out extension. -/
def skippedOut : PrintOut :=
  { ret := none, renames := [], submitted := [], pdfCalls := [],
    statCalls := 0, openCalls := 0 }

/-- Environment of the `PrintDocuments` variant's `Print`. -/
structure DocsEnv where
  today : Str
  defaultJobAttrs : AttrMap
  statRes : Except Nat Nat
  openRes : Except Nat Unit
  submitRes : Except Nat Nat
  renameRes : Str → Str → Option Nat

/-- The `PrintDocuments` variant of `IppPrinterManager.Print`: filter, stat,
open, job-attribute merge, `PrintDocuments`, then the outcome rename. The
failure-branch `os.Rename` result is discarded by the code, so the
environment's rename outcome is not even consulted there. -/
def printDocsVariant (env : DocsEnv) (file : Str) : PrintOut :=
  if accepts file = false then skippedOut
  else
    match env.statRes with
    | .error e =>
        { ret := some e, renames := [], submitted := [], pdfCalls := [],
          statCalls := 1, openCalls := 0 }
    | .ok _ =>
      match env.openRes with
      | .error e =>
          { ret := some e, renames := [], submitted := [], pdfCalls := [],
            statCalls := 1, openCalls := 1 }
      | .ok _ =>
        let ja := mergedJobAttrs env.defaultJobAttrs (pathBase file)
        match env.submitRes with
        | .error e =>
            { ret := some e,
              renames := [(file, failedDestUnderscore env.today file)],
              submitted := [ja], pdfCalls := [], statCalls := 1, openCalls := 1 }
        | .ok jId =>
          let dst := printedDest env.today jId file
          match env.renameRes file dst with
          | some re =>
              { ret := some re, renames := [(file, dst)], submitted := [ja],
                pdfCalls := [], statCalls := 1, openCalls := 1 }
          | none =>
              { ret := none, renames := [(file, dst)], submitted := [ja],
                pdfCalls := [], statCalls := 1, openCalls := 1 }

/-- Environment of the `PrintFile` variants' `Print`. -/
structure FileEnv where
  today : Str
  defaultJobAttrs : AttrMap
  submitRes : Except Nat Nat
  renameRes : Str → Str → Option Nat

/-- The `PrintFile` variant of `IppPrinterManager.Print`: filter,
`client.PrintFile(file, printerName, defaultJobAttrs)`, then the outcome
rename; the failure destination uses the `/failed/<date>/` separator. -/
def printFileVariant (env : FileEnv) (file : Str) : PrintOut :=
  if accepts file = false then skippedOut
  else
    match env.submitRes with
    | .error e =>
        { ret := some e, renames := [(file, failedDestSlash env.today file)],
          submitted := [env.defaultJobAttrs], pdfCalls := [],
          statCalls := 0, openCalls := 0 }
    | .ok jId =>
      let dst := printedDest env.today jId file
      match env.renameRes file dst with
      | some re =>
          { ret := some re, renames := [(file, dst)],
            submitted := [env.defaultJobAttrs], pdfCalls := [],
            statCalls := 0, openCalls := 0 }
      | none =>
          { ret := none, renames := [(file, dst)],
            submitted := [env.defaultJobAttrs], pdfCalls := [],
            statCalls := 0, openCalls := 0 }

/-- Environment of main.go's `Print`; `printPdf` (open, re-render,
`client.PrintJob`) is abstracted as one fallible call keyed by the path it
is given. -/
structure MainEnv where
  today : Str
  printPdfRes : Str → Except Nat Nat
  renameRes : Str → Str → Option Nat

/-- The path main.go's `Print` hands to `printPdf`: the file itself when its
name matches `(?i)\.pdf$`, otherwise the name with its `filepath.Ext`
occurrence replaced by `.pdf`. -/
def mainSubmitTarget (file : Str) : Str :=
  if isPdfName file = true then file
  else replaceFirst (filepathExt file) (str ".pdf") file

/-- main.go's `IppPrinterManager.Print`: filter, `printPdf` on the submit
target, then the outcome rename; the failure destination uses the
`/failed/<date>_` separator. -/
def mainPrint (env : MainEnv) (file : Str) : PrintOut :=
  if accepts file = false then skippedOut
  else
    match env.printPdfRes (mainSubmitTarget file) with
    | .error e =>
        { ret := some e, renames := [(file, failedDestUnderscore env.today file)],
          submitted := [], pdfCalls := [mainSubmitTarget file],
          statCalls := 0, openCalls := 0 }
    | .ok jId =>
      let dst := printedDest env.today jId file
      match env.renameRes file dst with
      | some re =>
          { ret := some re, renames := [(file, dst)], submitted := [],
            pdfCalls := [mainSubmitTarget file], statCalls := 0, openCalls := 0 }
      | none =>
          { ret := none, renames := [(file, dst)], submitted := [],
            pdfCalls := [mainSubmitTarget file], statCalls := 0, openCalls := 0 }

/-! ## `PrintAll`: one Poller cycle over the upload tree -/

/-- One visit of the `filepath.Walk` callback: the visited path, whether the
entry is a directory, and the walk-infrastructure error passed as the
callback's `err` argument (`none` in a healthy walk). -/
structure WalkEntry where
  path : Str
  isDir : Bool
  err : Option Nat

/-- The `PrintDocuments`-variant `PrintAll` callback folded over the walk
sequence: an infrastructure error is returned and ends the walk; a directory
is skipped; a regular file gets one `Print` call whose error is only logged.
Returns the paths `Print` was invoked on, the log of per-file outcomes, and
the walk's returned error. -/
def printAllWalk (printRes : Str → Option Nat) :
    List WalkEntry → List Str × List (Str × Option Nat) × Option Nat
  | [] => ([], [], none)
  | e :: rest =>
    match e.err with
    | some we => ([], [], some we)
    | none =>
      if e.isDir then printAllWalk printRes rest
      else
        let out := printAllWalk printRes rest
        (e.path :: out.1, (e.path, printRes e.path) :: out.2.1, out.2.2)

/-! ## Serialization through the manager's single mutex

`Print` brackets its whole body — including the protocol submission — in
`i.mu.Lock()` / deferred `i.mu.Unlock()` on the one shared mutex of the
manager. The interleaving model below runs `n` concurrent `Print` attempts;
each thread acquires the free lock, is then inside its submission, and
releases the lock when the attempt finishes. -/

/-- Where one concurrently running `Print` call stands. -/
inductive SubmitPhase where
  | beforeLock
  | submitting
  | finished
deriving DecidableEq

/-- Global state of `n` concurrent `Print` calls sharing the manager's
mutex. -/
structure LockWorld (n : Nat) where
  pcs : Fin n → SubmitPhase
  lockHeld : Bool

/-- All `n` attempts triggered, none yet started. -/
def initLockWorld (n : Nat) : LockWorld n :=
  { pcs := fun _ => SubmitPhase.beforeLock, lockHeld := false }

/-- Interleaved execution: a thread may acquire the mutex only while it is
free, and releases it when its submission finishes. -/
inductive PrintStep {n : Nat} : LockWorld n → LockWorld n → Prop where
  | acquire (w : LockWorld n) (i : Fin n)
      (hpc : w.pcs i = SubmitPhase.beforeLock) (hl : w.lockHeld = false) :
      PrintStep w { pcs := Function.update w.pcs i SubmitPhase.submitting, lockHeld := true }
  | release (w : LockWorld n) (i : Fin n)
      (hpc : w.pcs i = SubmitPhase.submitting) :
      PrintStep w { pcs := Function.update w.pcs i SubmitPhase.finished, lockHeld := false }

/-- States reachable from the all-pending start by interleaved steps. -/
def ReachableLock {n : Nat} (w : LockWorld n) : Prop :=
  Relation.ReflTransGen PrintStep (initLockWorld n) w

/-! ## The EventWatcher deduplicator -/

/-- Modelled from the spec: the per-path in-flight table of the EventWatcher
deduplicator. The repository's src/ contains only the Poller strategy
(`WatchFiles`/`PrintAll`); the EventWatcher strategy and its deduplicator
exist only in the spec, which describes a delayed handle call keyed by path
such that notifications arriving while an attempt for the same path is in
flight are collapsed into it. -/
structure DedupState where
  inFlight : List Str

/-- Modelled from the spec: one notification. A path already in flight is
collapsed (no new attempt); otherwise the path is marked in flight and one
delayed handle attempt is launched (`true`). -/
def dedupNotify (s : DedupState) (p : Str) : DedupState × Bool :=
  if p ∈ s.inFlight then (s, false)
  else ({ inFlight := p :: s.inFlight }, true)

/-- Modelled from the spec: a burst of simultaneous notifications, all
arriving before any in-flight attempt completes; returns the final table and
how many handle attempts were launched. -/
def dedupBurst (s : DedupState) : List Str → DedupState × Nat
  | [] => (s, 0)
  | p :: ps =>
    let step := dedupNotify s p
    let rest := dedupBurst step.1 ps
    (rest.1, (if step.2 then 1 else 0) + rest.2)

/-! ## Directory bootstrap (`NewIppPrinterManager`) -/

/-- Filesystem layout: which paths are directories and which are
non-directory files. -/
structure FsTree where
  dirs : List Str
  files : List Str
deriving DecidableEq

/-- Every slash-separated prefix of the path, shortest first: the chain of
directories `os.MkdirAll` ensures. -/
def joinSlash : List Str → Str
  | [] => []
  | c :: rest => rest.foldl (fun acc d => acc ++ '/' :: d) c

/-- The ancestor chain of a path, shortest prefix first, the path last. -/
def ancestorPaths (p : Str) : List Str :=
  let comps := p.splitOn '/'
  (List.range comps.length).map (fun k => joinSlash (comps.take (k + 1)))

/-- Add a directory if not already present. -/
def insertDir (ds : List Str) (p : Str) : List Str :=
  if p ∈ ds then ds else ds ++ [p]

/-- Go `os.MkdirAll(p, 0755)`: creates every missing directory on the chain
to `p`; succeeds with no change when they all exist; fails when a
non-directory file occupies a path on the chain. -/
def mkdirAll (fs : FsTree) (p : Str) : Except Nat FsTree :=
  if (ancestorPaths p).any (fun a => fs.files.contains a) = true then Except.error 1
  else Except.ok { dirs := (ancestorPaths p).foldl insertDir fs.dirs, files := fs.files }

/-- The directory-creation step of `NewIppPrinterManager`: `MkdirAll` on
`<root>/upload`, then `<root>/printed`, then `<root>/failed`, stopping at the
first error. -/
def bootstrapDirs (fs : FsTree) (root : Str) : Except Nat FsTree :=
  match mkdirAll fs (root ++ str "/upload") with
  | .error e => .error e
  | .ok fs1 =>
    match mkdirAll fs1 (root ++ str "/printed") with
    | .error e => .error e
    | .ok fs2 => mkdirAll fs2 (root ++ str "/failed")

/-! ## Destinations as worded by the spec

These three definitions follow the spec/claim wording — the `/upload/`
segment replaced by the outcome directory and the **base filename** prefixed
by the date (and, on success, the job id) — for comparison against the
`strings.Replace`-based computations of the code. -/

/-- Success destination as the claim words it:
`printed/<date>_<jobId>_<originalBaseName>`. -/
def specPrintedDest (today : Str) (jId : Nat) (file : Str) : Str :=
  match splitFirst uploadSeg file with
  | some (pre, _) =>
      pre ++ str "/printed/" ++ today ++ str "_" ++ natStr jId ++ str "_" ++ pathBase file
  | none => file

/-- Failure destination as the claim words it, underscore separator:
`failed/<date>_<originalBaseName>`. -/
def specFailedUnderscore (today : Str) (file : Str) : Str :=
  match splitFirst uploadSeg file with
  | some (pre, _) => pre ++ str "/failed/" ++ today ++ str "_" ++ pathBase file
  | none => file

/-- Failure destination as the claim words it, slash separator:
`failed/<date>/<originalBaseName>`. -/
def specFailedSlashSep (today : Str) (file : Str) : Str :=
  match splitFirst uploadSeg file with
  | some (pre, _) => pre ++ str "/failed/" ++ today ++ str "/" ++ pathBase file
  | none => file

/-- The mutual-exclusion invariant maintained by the manager's mutex:
the lock is held whenever some attempt is submitting, and at most one
attempt is submitting. -/
def MutexInv {n : Nat} (w : LockWorld n) : Prop :=
  (∀ i, w.pcs i = SubmitPhase.submitting → w.lockHeld = true) ∧
  (∀ i j, w.pcs i = SubmitPhase.submitting → w.pcs j = SubmitPhase.submitting → i = j)

/-! ## Concrete fixtures used by the witness theorems -/

/-- A healthy environment whose submission succeeds with job id 42. -/
def cw2Docs : DocsEnv :=
  { today := str "2024-03-01", defaultJobAttrs := emptyAttrs,
    statRes := Except.ok 4, openRes := Except.ok (), submitRes := Except.ok 42,
    renameRes := fun _ _ => none }

/-- A healthy `PrintFile` environment, submission succeeding. -/
def cw2File : FileEnv :=
  { today := str "2024-03-01", defaultJobAttrs := emptyAttrs,
    submitRes := Except.ok 42, renameRes := fun _ _ => none }

/-- A healthy main.go environment, `printPdf` succeeding. -/
def cw2Main : MainEnv :=
  { today := str "2024-03-01", printPdfRes := fun _ => Except.ok 42,
    renameRes := fun _ _ => none }

/-- Submission fails with error 7 and even the rename outcome is an error:
the returned value must still be the submission error. -/
def cw3Docs : DocsEnv :=
  { today := str "2024-03-01", defaultJobAttrs := emptyAttrs,
    statRes := Except.ok 4, openRes := Except.ok (), submitRes := Except.error 7,
    renameRes := fun _ _ => some 99 }

/-- Submission fails with error 8, rename also failing. -/
def cw3File : FileEnv :=
  { today := str "2024-03-01", defaultJobAttrs := emptyAttrs,
    submitRes := Except.error 8, renameRes := fun _ _ => some 99 }

/-- Caller defaults that bind the job-name key themselves. -/
def cw4Env : DocsEnv :=
  { today := str "2024-03-01",
    defaultJobAttrs := setAttr emptyAttrs attributeJobName (AttrVal.strV (str "caller-name")),
    statRes := Except.ok 4, openRes := Except.ok (), submitRes := Except.ok 42,
    renameRes := fun _ _ => none }

/-- Caller defaults binding only a `copies` key. -/
def cw4Defaults : AttrMap := setAttr emptyAttrs (str "copies") (AttrVal.numV 2)

/-- An environment whose `os.Stat` fails with error 7. -/
def cw5Env : DocsEnv :=
  { today := str "2024-03-01", defaultJobAttrs := emptyAttrs,
    statRes := Except.error 7, openRes := Except.ok (), submitRes := Except.ok 1,
    renameRes := fun _ _ => none }

/-- An environment whose `os.Open` fails with error 9 after a good stat. -/
def cw5OpenEnv : DocsEnv :=
  { today := str "2024-03-01", defaultJobAttrs := emptyAttrs,
    statRes := Except.ok 4, openRes := Except.error 9, submitRes := Except.ok 1,
    renameRes := fun _ _ => none }

/-- A main.go environment whose `printPdf` (its internal open) fails. -/
def cw5Main : MainEnv :=
  { today := str "2024-03-01", printPdfRes := fun _ => Except.error 11,
    renameRes := fun _ _ => none }

/-- One walk cycle: the upload directory itself, then two regular files. -/
def cw6Entries : List WalkEntry :=
  [ { path := str "/files/upload", isDir := true, err := none },
    { path := str "/files/upload/a.pdf", isDir := false, err := none },
    { path := str "/files/upload/b.pdf", isDir := false, err := none } ]

/-- A per-file outcome oracle that fails on the first file. -/
def cw6Oracle : Str → Option Nat :=
  fun p => if p = str "/files/upload/a.pdf" then some 7 else none

/-- An environment for the self-rename claim, submission succeeding. -/
def cw10Docs : DocsEnv :=
  { today := str "2024-03-01", defaultJobAttrs := emptyAttrs,
    statRes := Except.ok 4, openRes := Except.ok (), submitRes := Except.ok 5,
    renameRes := fun _ _ => none }

/-- A `PrintFile` environment for the self-rename claim, submission failing. -/
def cw10File : FileEnv :=
  { today := str "2024-03-01", defaultJobAttrs := emptyAttrs,
    submitRes := Except.error 6, renameRes := fun _ _ => none }

/-- The empty starting filesystem of the bootstrap witness. -/
def cw9Start : FsTree := { dirs := [], files := [] }

/-- The layout after one successful bootstrap from the empty filesystem with
root `./files`. -/
def cw9Done : FsTree :=
  { dirs := [str ".", str "./files", str "./files/upload",
             str "./files/printed", str "./files/failed"],
    files := [] }

/-! ## Lemmas about the string machinery -/

theorem replaceFirst_eq_self_of_not_contains (old new s : Str)
    (h : containsSeg old s = false) : replaceFirst old new s = s := by
  induction s with
  | nil =>
    have hne : old ≠ [] := by
      intro h0
      subst h0
      simp [containsSeg] at h
    simp [replaceFirst, hne]
  | cons c rest ih =>
    simp only [containsSeg, Bool.or_eq_false_iff] at h
    simp [replaceFirst, h.1, ih h.2]

theorem replaceFirst_of_splitFirst (old new : Str) :
    ∀ s pre suf : Str, splitFirst old s = some (pre, suf) →
      replaceFirst old new s = pre ++ new ++ suf := by
  intro s
  induction s with
  | nil =>
    intro pre suf h
    by_cases h0 : old = []
    · subst h0
      simp [splitFirst] at h
      obtain ⟨h1, h2⟩ := h
      subst h1
      subst h2
      simp [replaceFirst]
    · simp [splitFirst, h0] at h
  | cons c rest ih =>
    intro pre suf h
    by_cases hp : old.isPrefixOf (c :: rest) = true
    · simp only [splitFirst, hp, if_true] at h
      obtain ⟨h1, h2⟩ := Prod.mk.injEq .. ▸ Option.some.injEq .. ▸ h
      subst h1
      subst h2
      simp [replaceFirst, hp]
    · cases hrec : splitFirst old rest with
      | none => simp [splitFirst, hp, hrec] at h
      | some pr =>
        obtain ⟨pre1, suf1⟩ := pr
        simp only [splitFirst, hp, hrec] at h
        obtain ⟨h1, h2⟩ := Prod.mk.injEq .. ▸ Option.some.injEq .. ▸ h
        subst h1
        subst h2
        simp [replaceFirst, hp, ih pre1 suf1 hrec]

theorem eq_append_of_splitFirst (old : Str) :
    ∀ s pre suf : Str, splitFirst old s = some (pre, suf) →
      s = pre ++ old ++ suf := by
  intro s
  induction s with
  | nil =>
    intro pre suf h
    by_cases h0 : old = []
    · subst h0
      simp [splitFirst] at h
      obtain ⟨h1, h2⟩ := h
      subst h1
      subst h2
      rfl
    · simp [splitFirst, h0] at h
  | cons c rest ih =>
    intro pre suf h
    by_cases hp : old.isPrefixOf (c :: rest) = true
    · have hpre : old <+: (c :: rest) := by
        rw [← List.isPrefixOf_iff_prefix]
        exact hp
      simp only [splitFirst, hp, if_true] at h
      obtain ⟨h1, h2⟩ := Prod.mk.injEq .. ▸ Option.some.injEq .. ▸ h
      subst h1
      subst h2
      have hd : old ++ (c :: rest).drop old.length = c :: rest :=
        List.prefix_iff_eq_append.mp hpre
      simpa using hd.symm
    · cases hrec : splitFirst old rest with
      | none => simp [splitFirst, hp, hrec] at h
      | some pr =>
        obtain ⟨pre1, suf1⟩ := pr
        simp only [splitFirst, hp, hrec] at h
        obtain ⟨h1, h2⟩ := Prod.mk.injEq .. ▸ Option.some.injEq .. ▸ h
        subst h1
        subst h2
        simpa using ih pre1 suf1 hrec

theorem takeWhile_append_all {α : Type} (p : α → Bool) (l1 l2 : List α)
    (h : ∀ a ∈ l1, p a = true) :
    (l1 ++ l2).takeWhile p = l1 ++ l2.takeWhile p := by
  induction l1 with
  | nil => simp
  | cons a l ih =>
    have ha : p a = true := h a (by simp)
    simp [List.takeWhile_cons, ha, ih fun b hb => h b (by simp [hb])]

theorem pathBase_flat (pre suf : Str) (hne : suf ≠ []) (hflat : '/' ∉ suf) :
    pathBase (pre ++ uploadSeg ++ suf) = suf := by
  obtain ⟨c, cs, hrev⟩ : ∃ c cs, suf.reverse = c :: cs := by
    cases hsr : suf.reverse with
    | nil => exact absurd (by simpa using congrArg List.reverse hsr) hne
    | cons c cs => exact ⟨c, cs, rfl⟩
  have hcmem : c ∈ suf := by
    have : c ∈ suf.reverse := hrev ▸ List.mem_cons_self c cs
    simpa using this
  have hcne : ¬ (c = '/') := fun hcs => hflat (hcs ▸ hcmem)
  have hsrev : (pre ++ uploadSeg ++ suf).reverse
      = suf.reverse ++ (uploadSeg.reverse ++ pre.reverse) := by
    simp [List.reverse_append]
  have hsne : pre ++ uploadSeg ++ suf ≠ [] := by
    intro h0
    have := congrArg List.length h0
    simp [uploadSeg, str] at this
  have hdrop : dropTrailingSlashes (pre ++ uploadSeg ++ suf) = pre ++ uploadSeg ++ suf := by
    rw [dropTrailingSlashes, hsrev, hrev, List.cons_append, List.dropWhile_cons]
    simp only [hcne, if_false, decide_eq_true_eq, if_neg hcne]
    rw [← List.cons_append, ← hrev, ← hsrev, List.reverse_reverse]
  have hlast : lastElem (pre ++ uploadSeg ++ suf) = suf := by
    rw [lastElem, hsrev]
    have hall : ∀ a ∈ suf.reverse, (fun ch => ¬ (ch = '/') : Char → Bool) a = true := by
      intro a ha
      have hmem : a ∈ suf := by simpa using ha
      have hane : a ≠ '/' := fun hcs => hflat (hcs ▸ hmem)
      simpa using hane
    rw [takeWhile_append_all _ _ _ hall]
    have hup : uploadSeg.reverse = '/' :: str "daolpu/" := by decide
    rw [hup, List.cons_append, List.takeWhile_cons]
    simp
  simp only [pathBase, if_neg hsne, hdrop, hlast]

/-! ## Lemmas about the lock interleaving model -/

theorem mutexInv_init (n : Nat) : MutexInv (initLockWorld n) := by
  constructor
  · intro i h
    simp [initLockWorld] at h
  · intro i j hi hj
    simp [initLockWorld] at hi

theorem mutexInv_step {n : Nat} {w w2 : LockWorld n}
    (hw : MutexInv w) (hs : PrintStep w w2) : MutexInv w2 := by
  cases hs with
  | acquire i hpc hl =>
    constructor
    · intro j hj
      rfl
    · intro j k hj hk
      have hj2 : Function.update w.pcs i SubmitPhase.submitting j = SubmitPhase.submitting := hj
      have hk2 : Function.update w.pcs i SubmitPhase.submitting k = SubmitPhase.submitting := hk
      by_cases hji : j = i
      · by_cases hki : k = i
        · rw [hji, hki]
        · rw [Function.update_noteq hki] at hk2
          have hlk := hw.1 k hk2
          rw [hl] at hlk
          simp at hlk
      · rw [Function.update_noteq hji] at hj2
        have hlj := hw.1 j hj2
        rw [hl] at hlj
        simp at hlj
  | release i hpc =>
    constructor
    · intro j hj
      have hj2 : Function.update w.pcs i SubmitPhase.finished j = SubmitPhase.submitting := hj
      by_cases hji : j = i
      · subst hji
        rw [Function.update_same] at hj2
        simp at hj2
      · rw [Function.update_noteq hji] at hj2
        exact absurd (hw.2 j i hj2 hpc) hji
    · intro j k hj hk
      have hj2 : Function.update w.pcs i SubmitPhase.finished j = SubmitPhase.submitting := hj
      by_cases hji : j = i
      · subst hji
        rw [Function.update_same] at hj2
        simp at hj2
      · rw [Function.update_noteq hji] at hj2
        exact absurd (hw.2 j i hj2 hpc) hji

theorem mutexInv_reachable {n : Nat} {w : LockWorld n}
    (h : ReachableLock w) : MutexInv w := by
  induction h with
  | refl => exact mutexInv_init n
  | tail hsteps hstep ih => exact mutexInv_step ih hstep

/-! ## Lemmas about the deduplicator model -/

theorem dedupBurst_absorbed (p : Str) (s : DedupState) (hp : p ∈ s.inFlight) :
    ∀ m : Nat, dedupBurst s (List.replicate m p) = (s, 0) := by
  intro m
  induction m with
  | zero => simp [dedupBurst]
  | succ k ih => simp [List.replicate_succ, dedupBurst, dedupNotify, hp, ih]

/-! ## Lemmas about the filesystem bootstrap model -/

theorem mem_insertDir_self (ds : List Str) (p : Str) : p ∈ insertDir ds p := by
  rw [insertDir]
  split
  · assumption
  · simp

theorem mem_insertDir_of_mem (ds : List Str) (p q : Str) (h : q ∈ ds) :
    q ∈ insertDir ds p := by
  rw [insertDir]
  split
  · exact h
  · simp [h]

theorem insertDir_eq_of_mem (ds : List Str) (p : Str) (h : p ∈ ds) :
    insertDir ds p = ds := by
  simp [insertDir, h]

theorem mem_foldl_insertDir_of_mem (l : List Str) :
    ∀ (ds : List Str) (q : Str), q ∈ ds → q ∈ l.foldl insertDir ds := by
  induction l with
  | nil =>
    intro ds q h
    simpa using h
  | cons a t ih =>
    intro ds q h
    exact ih _ _ (mem_insertDir_of_mem _ _ _ h)

theorem mem_foldl_insertDir_self (l : List Str) :
    ∀ (ds : List Str) (a : Str), a ∈ l → a ∈ l.foldl insertDir ds := by
  induction l with
  | nil =>
    intro ds a h
    simp at h
  | cons b t ih =>
    intro ds a h
    rcases List.mem_cons.mp h with h1 | h2
    · subst h1
      exact mem_foldl_insertDir_of_mem t _ _ (mem_insertDir_self _ _)
    · exact ih _ _ h2

theorem foldl_insertDir_of_subset (l : List Str) :
    ∀ ds : List Str, (∀ a ∈ l, a ∈ ds) → l.foldl insertDir ds = ds := by
  induction l with
  | nil =>
    intro ds h
    rfl
  | cons a t ih =>
    intro ds h
    rw [List.foldl_cons, insertDir_eq_of_mem _ _ (h a (by simp))]
    exact ih ds fun b hb => h b (by simp [hb])

theorem mkdirAll_noFileConflict (fs fs2 : FsTree) (p : Str)
    (h : mkdirAll fs p = Except.ok fs2) :
    (ancestorPaths p).any (fun a => fs.files.contains a) = false := by
  by_cases hc : (ancestorPaths p).any (fun a => fs.files.contains a) = true
  · rw [mkdirAll, if_pos hc] at h
    cases h
  · simpa using hc

theorem mkdirAll_ok_eq (fs fs2 : FsTree) (p : Str)
    (h : mkdirAll fs p = Except.ok fs2) :
    fs2 = { dirs := (ancestorPaths p).foldl insertDir fs.dirs, files := fs.files } := by
  have hc := mkdirAll_noFileConflict fs fs2 p h
  rw [mkdirAll, if_neg (by simpa using hc)] at h
  injection h with h1
  exact h1.symm

theorem mkdirAll_files (fs fs2 : FsTree) (p : Str)
    (h : mkdirAll fs p = Except.ok fs2) : fs2.files = fs.files := by
  rw [mkdirAll_ok_eq fs fs2 p h]

theorem mkdirAll_dirs_mono (fs fs2 : FsTree) (p d : Str)
    (h : mkdirAll fs p = Except.ok fs2) (hd : d ∈ fs.dirs) : d ∈ fs2.dirs := by
  rw [mkdirAll_ok_eq fs fs2 p h]
  exact mem_foldl_insertDir_of_mem _ _ _ hd

theorem mkdirAll_dirs_cover (fs fs2 : FsTree) (p : Str)
    (h : mkdirAll fs p = Except.ok fs2) :
    ∀ a ∈ ancestorPaths p, a ∈ fs2.dirs := by
  intro a ha
  rw [mkdirAll_ok_eq fs fs2 p h]
  exact mem_foldl_insertDir_self _ _ _ ha

theorem mkdirAll_fixed (fs : FsTree) (p : Str)
    (hdirs : ∀ a ∈ ancestorPaths p, a ∈ fs.dirs)
    (hfiles : (ancestorPaths p).any (fun a => fs.files.contains a) = false) :
    mkdirAll fs p = Except.ok fs := by
  rw [mkdirAll, if_neg (by simpa using hfiles), foldl_insertDir_of_subset _ _ hdirs]

/-! ## Claim theorems -/

/-- C1, counterexample: for `upload/sub/report.pdf` — a file in a
subdirectory of the upload directory — the success destination the code
computes attaches the `<date>_<jobId>_` prefix to the `sub` segment, not to
the base filename demanded by the claim's
`printed/<YYYY-MM-DD>_<jobId>_<originalBaseName>` contract. -/
theorem destination_naming_counterexample :
    printedDest (str "2024-03-01") 42 (str "/files/upload/sub/report.pdf")
      ≠ specPrintedDest (str "2024-03-01") 42 (str "/files/upload/sub/report.pdf") := by
  decide

/-- C1, amended: for upload paths whose remainder after the first `/upload/`
is a bare nonempty filename (no further separator, i.e. the file sits
directly in the upload directory), the success destination equals the
claim's `printed/<date>_<jobId>_<baseName>` form, and both failure variants
carry the date prefix directly before the base name under `failed/`
(underscore separator in main.go and the PrintDocuments variant, slash
separator in the PrintFile variants). For deeper paths the prefix attaches
to the first path segment after `upload` instead of the base name. -/
theorem destination_naming_amended
    (today : Str) (jId : Nat) (file pre suf : Str)
    (hsplit : splitFirst uploadSeg file = some (pre, suf))
    (hne : suf ≠ []) (hflat : '/' ∉ suf) :
    printedDest today jId file = specPrintedDest today jId file ∧
    failedDestUnderscore today file = specFailedUnderscore today file ∧
    failedDestSlash today file = specFailedSlashSep today file := by
  have hdecomp : file = pre ++ uploadSeg ++ suf :=
    eq_append_of_splitFirst uploadSeg file pre suf hsplit
  have hbase : pathBase file = suf := by
    rw [hdecomp]
    exact pathBase_flat pre suf hne hflat
  have hrepl : ∀ new : Str, replaceFirst uploadSeg new file = pre ++ new ++ suf :=
    fun new => replaceFirst_of_splitFirst uploadSeg new file pre suf hsplit
  refine ⟨?_, ?_, ?_⟩ <;>
    simp [printedDest, failedDestUnderscore, failedDestSlash,
      specPrintedDest, specFailedUnderscore, specFailedSlashSep,
      hsplit, hbase, hrepl, List.append_assoc]

/-- Witness for the amended naming claim: `upload/report.pdf` directly in
the upload directory. -/
theorem destination_naming_amended_witness :
    printedDest (str "2024-03-01") 7 (str "/files/upload/report.pdf")
      = specPrintedDest (str "2024-03-01") 7 (str "/files/upload/report.pdf") ∧
    failedDestUnderscore (str "2024-03-01") (str "/files/upload/report.pdf")
      = specFailedUnderscore (str "2024-03-01") (str "/files/upload/report.pdf") ∧
    failedDestSlash (str "2024-03-01") (str "/files/upload/report.pdf")
      = specFailedSlashSep (str "2024-03-01") (str "/files/upload/report.pdf") :=
  destination_naming_amended (str "2024-03-01") 7 (str "/files/upload/report.pdf")
    (str "/files") (str "report.pdf") (by decide) (by decide) (by decide)

/-- C2: for every path whose extension is not in the allow-list, `Print`
returns nil immediately, with no rename, no protocol submission, no
`printPdf` call and no stat/open — in all three variants, whatever the
environment. -/
theorem rejected_extension_no_effects (denv : DocsEnv) (fenv : FileEnv)
    (menv : MainEnv) (file : Str) (h : accepts file = false) :
    printDocsVariant denv file = skippedOut ∧
    printFileVariant fenv file = skippedOut ∧
    mainPrint menv file = skippedOut := by
  refine ⟨?_, ?_, ?_⟩ <;> simp [printDocsVariant, printFileVariant, mainPrint, h]

/-- Witness for the rejected-extension claim at `upload/report.txt`. -/
theorem rejected_extension_no_effects_witness :
    accepts (str "/files/upload/report.txt") = false ∧
    printDocsVariant cw2Docs (str "/files/upload/report.txt") = skippedOut ∧
    printFileVariant cw2File (str "/files/upload/report.txt") = skippedOut ∧
    mainPrint cw2Main (str "/files/upload/report.txt") = skippedOut :=
  ⟨by decide,
   rejected_extension_no_effects cw2Docs cw2File cw2Main
     (str "/files/upload/report.txt") (by decide)⟩

/-- C3: on a protocol submission error for an allow-listed path, `Print`
attempts the move into the failed sub-tree and returns the original
submission error; the environments' rename outcomes are arbitrary, and the
failure branch discards the rename result, so the returned value is the
submission error whether the failed-move rename succeeds or fails. -/
theorem submission_error_routes_failed_returns_error
    (denv : DocsEnv) (fenv : FileEnv) (file : Str) (e1 e2 sz : Nat)
    (hacc : accepts file = true)
    (hstat : denv.statRes = Except.ok sz) (hopen : denv.openRes = Except.ok ())
    (hsub1 : denv.submitRes = Except.error e1)
    (hsub2 : fenv.submitRes = Except.error e2) :
    (printDocsVariant denv file).ret = some e1 ∧
    (printDocsVariant denv file).renames
      = [(file, failedDestUnderscore denv.today file)] ∧
    (printFileVariant fenv file).ret = some e2 ∧
    (printFileVariant fenv file).renames
      = [(file, failedDestSlash fenv.today file)] := by
  refine ⟨?_, ?_, ?_, ?_⟩ <;>
    simp [printDocsVariant, printFileVariant, hacc, hstat, hopen, hsub1, hsub2]

/-- Witness for the submission-error claim: errors 7 and 8 with a failing
rename (result 99, discarded by the code). -/
theorem submission_error_routes_failed_returns_error_witness :
    (printDocsVariant cw3Docs (str "/files/upload/report.pdf")).ret = some 7 ∧
    (printDocsVariant cw3Docs (str "/files/upload/report.pdf")).renames
      = [(str "/files/upload/report.pdf",
          failedDestUnderscore cw3Docs.today (str "/files/upload/report.pdf"))] ∧
    (printFileVariant cw3File (str "/files/upload/report.pdf")).ret = some 8 ∧
    (printFileVariant cw3File (str "/files/upload/report.pdf")).renames
      = [(str "/files/upload/report.pdf",
          failedDestSlash cw3File.today (str "/files/upload/report.pdf"))] :=
  submission_error_routes_failed_returns_error cw3Docs cw3File
    (str "/files/upload/report.pdf") 7 8 4 (by decide) rfl rfl rfl rfl

/-- C4, counterexample: with caller defaults binding the job-name key to
`caller-name`, the attribute map actually submitted for
`upload/report.pdf` carries `caller-name`, not the base filename
`report.pdf`: `maps.Copy(ja, i.defaultJobAttrs)` lets a caller default
overwrite the derived name key, so the name is not always set from the
filename. -/
theorem jobName_merge_counterexample :
    ((printDocsVariant cw4Env (str "/files/upload/report.pdf")).submitted.headD
        emptyAttrs) attributeJobName = some (AttrVal.strV (str "caller-name")) ∧
    str "caller-name" ≠ pathBase (str "/files/upload/report.pdf") := by
  decide

/-- C4, amended: the job-name attribute is set from the base filename only
when the caller defaults do not bind the name key; every caller-supplied
key — the name key included — passes through verbatim and wins over the
derived entry; and the map the PrintDocuments variant submits is exactly
this merge of the base filename with the caller defaults. -/
theorem jobName_merge_amended (defaults : AttrMap) (fileName : Str) :
    (defaults attributeJobName = none →
      mergedJobAttrs defaults fileName attributeJobName
        = some (AttrVal.strV fileName)) ∧
    (∀ k v, defaults k = some v → mergedJobAttrs defaults fileName k = some v) ∧
    (∀ (env : DocsEnv) (file : Str) (sz : Nat),
      accepts file = true → env.statRes = Except.ok sz →
      env.openRes = Except.ok () →
      (printDocsVariant env file).submitted
        = [mergedJobAttrs env.defaultJobAttrs (pathBase file)]) := by
  refine ⟨?_, ?_, ?_⟩
  · intro h
    simp [mergedJobAttrs, mapsCopy, setAttr, emptyAttrs, h]
  · intro k v h
    simp [mergedJobAttrs, mapsCopy, h]
  · intro env file sz hacc hstat hopen
    cases hsub : env.submitRes with
    | error e => simp [printDocsVariant, hacc, hstat, hopen, hsub]
    | ok jId =>
      cases hr : env.renameRes file (printedDest env.today jId file) with
      | none => simp [printDocsVariant, hacc, hstat, hopen, hsub, hr]
      | some re => simp [printDocsVariant, hacc, hstat, hopen, hsub, hr]

/-- Witness for the amended merge claim: defaults binding only `copies`. -/
theorem jobName_merge_amended_witness :
    mergedJobAttrs cw4Defaults (str "report.pdf") attributeJobName
      = some (AttrVal.strV (str "report.pdf")) ∧
    mergedJobAttrs cw4Defaults (str "report.pdf") (str "copies")
      = some (AttrVal.numV 2) :=
  ⟨(jobName_merge_amended cw4Defaults (str "report.pdf")).1 (by decide),
   (jobName_merge_amended cw4Defaults (str "report.pdf")).2.1
     (str "copies") (AttrVal.numV 2) (by decide)⟩

/-- C5, counterexample: the stat of `upload/report.pdf` fails (error 7); the
path is resolvable — it contains the `/upload/` segment — yet `Print` of the
PrintDocuments variant performs no rename at all: the file is not routed to
`failed`, it remains in `upload`, and the stat error is returned. -/
theorem statFailure_counterexample :
    containsSeg uploadSeg (str "/files/upload/report.pdf") = true ∧
    (printDocsVariant cw5Env (str "/files/upload/report.pdf")).renames = [] ∧
    (printDocsVariant cw5Env (str "/files/upload/report.pdf")).ret = some 7 := by
  decide

/-- C5, amended: in the PrintDocuments variant an open or stat failure
aborts the attempt with no move and no submission — the error is returned
and the file stays in `upload` (to be re-attempted by the next poll cycle);
only in the main.go variant does an open failure, surfacing as a `printPdf`
error, route the file to the failed sub-tree. -/
theorem openStat_failure_amended
    (denv denv2 : DocsEnv) (menv : MainEnv) (file : Str) (e1 e2 e3 sz : Nat)
    (hacc : accepts file = true)
    (hstat : denv.statRes = Except.error e1)
    (hstat2 : denv2.statRes = Except.ok sz)
    (hopen2 : denv2.openRes = Except.error e2)
    (hmain : menv.printPdfRes (mainSubmitTarget file) = Except.error e3) :
    ((printDocsVariant denv file).ret = some e1 ∧
      (printDocsVariant denv file).renames = [] ∧
      (printDocsVariant denv file).submitted = []) ∧
    ((printDocsVariant denv2 file).ret = some e2 ∧
      (printDocsVariant denv2 file).renames = [] ∧
      (printDocsVariant denv2 file).submitted = []) ∧
    ((mainPrint menv file).ret = some e3 ∧
      (mainPrint menv file).renames
        = [(file, failedDestUnderscore menv.today file)]) := by
  refine ⟨⟨?_, ?_, ?_⟩, ⟨?_, ?_, ?_⟩, ?_, ?_⟩ <;>
    simp [printDocsVariant, mainPrint, hacc, hstat, hstat2, hopen2, hmain]

/-- Witness for the amended open/stat claim: stat error 7, open error 9,
and a main.go `printPdf` failure 11 on `upload/report.pdf`. -/
theorem openStat_failure_amended_witness :
    ((printDocsVariant cw5Env (str "/files/upload/report.pdf")).ret = some 7 ∧
      (printDocsVariant cw5Env (str "/files/upload/report.pdf")).renames = [] ∧
      (printDocsVariant cw5Env (str "/files/upload/report.pdf")).submitted = []) ∧
    ((printDocsVariant cw5OpenEnv (str "/files/upload/report.pdf")).ret = some 9 ∧
      (printDocsVariant cw5OpenEnv (str "/files/upload/report.pdf")).renames = [] ∧
      (printDocsVariant cw5OpenEnv (str "/files/upload/report.pdf")).submitted = []) ∧
    ((mainPrint cw5Main (str "/files/upload/report.pdf")).ret = some 11 ∧
      (mainPrint cw5Main (str "/files/upload/report.pdf")).renames
        = [(str "/files/upload/report.pdf",
            failedDestUnderscore cw5Main.today (str "/files/upload/report.pdf"))]) :=
  openStat_failure_amended cw5Env cw5OpenEnv cw5Main
    (str "/files/upload/report.pdf") 7 9 11 4 (by decide) rfl rfl rfl rfl

/-- C6: one Poller cycle (`PrintAll`'s walk callback) invokes `Print` on
exactly the regular files of the walk sequence, in walk order, never on a
directory, and returns nil; the per-file outcome oracle is universally
quantified, so a failing `Print` on one file never aborts the cycle — every
remaining regular file is still attempted. -/
theorem poller_cycle_attempts_every_file
    (printRes : Str → Option Nat) (entries : List WalkEntry)
    (h : ∀ e ∈ entries, e.err = none) :
    (printAllWalk printRes entries).1
      = (entries.filter (fun e => !e.isDir)).map WalkEntry.path ∧
    (printAllWalk printRes entries).2.2 = none := by
  induction entries with
  | nil => simp [printAllWalk]
  | cons e rest ih =>
    have he : e.err = none := h e (by simp)
    have ih2 := ih fun e2 he2 => h e2 (by simp [he2])
    cases hd : e.isDir with
    | true => simpa [printAllWalk, he, hd] using ih2
    | false => simpa [printAllWalk, he, hd] using ih2

/-- Witness for the Poller-cycle claim: a directory entry and two files,
with `Print` failing on the first file; both files are still attempted and
the walk returns nil. -/
theorem poller_cycle_attempts_every_file_witness :
    (printAllWalk cw6Oracle cw6Entries).1
      = [str "/files/upload/a.pdf", str "/files/upload/b.pdf"] ∧
    (printAllWalk cw6Oracle cw6Entries).2.2 = none := by
  have h := poller_cycle_attempts_every_file cw6Oracle cw6Entries (by decide)
  refine ⟨?_, h.2⟩
  rw [h.1]
  decide

/-- C7: in every state reachable by interleaving `n` concurrently triggered
`Print` attempts — same or different paths — no two distinct attempts are
inside their protocol submission at the same time: every submission runs
between `mu.Lock()` and the deferred `mu.Unlock()` of the manager's single
mutex, so submissions are fully serialized. -/
theorem submissions_serialized {n : Nat} (w : LockWorld n)
    (hw : ReachableLock w) (i j : Fin n) (hij : i ≠ j) :
    ¬ (w.pcs i = SubmitPhase.submitting ∧ w.pcs j = SubmitPhase.submitting) := by
  rintro ⟨hi, hj⟩
  exact hij ((mutexInv_reachable hw).2 i j hi hj)

/-- Witness for the serialization claim: two attempts, the first holding the
lock mid-submission (one acquire step from the start). -/
theorem submissions_serialized_witness :
    ¬ (({ pcs := Function.update (initLockWorld 2).pcs 0 SubmitPhase.submitting,
          lockHeld := true } : LockWorld 2).pcs 0 = SubmitPhase.submitting ∧
       ({ pcs := Function.update (initLockWorld 2).pcs 0 SubmitPhase.submitting,
          lockHeld := true } : LockWorld 2).pcs 1 = SubmitPhase.submitting) :=
  submissions_serialized _
    (Relation.ReflTransGen.single
      (PrintStep.acquire (n := 2) (initLockWorld 2) 0 rfl rfl))
    0 1 (by decide)

/-- C8: a burst of `m ≥ 1` simultaneous notifications for one path,
arriving while no attempt for that path is in flight and before any attempt
completes, launches exactly one handle attempt — the deduplicator collapses
the duplicates (spec-modelled: the EventWatcher strategy has no code under
src/). -/
theorem dedup_collapses_burst (s : DedupState) (p : Str) (m : Nat)
    (hp : p ∉ s.inFlight) (hm : 1 ≤ m) :
    (dedupBurst s (List.replicate m p)).2 = 1 := by
  cases m with
  | zero => exact absurd hm (by simp)
  | succ k =>
    have habs := dedupBurst_absorbed p { inFlight := p :: s.inFlight } (by simp) k
    simp [List.replicate_succ, dedupBurst, dedupNotify, if_neg hp, habs]

/-- Witness for the dedup claim: three simultaneous events for
`upload/big.pdf` from an idle table. -/
theorem dedup_collapses_burst_witness :
    (dedupBurst { inFlight := [] }
      (List.replicate 3 (str "/files/upload/big.pdf"))).2 = 1 :=
  dedup_collapses_burst { inFlight := [] } (str "/files/upload/big.pdf") 3
    (by simp) (by simp)

/-- C9: the startup directory creation (`MkdirAll` on `upload`, `printed`,
`failed` under the root) is idempotent — a second run on the layout
produced by a successful first run returns no error and leaves the layout
unchanged. -/
theorem bootstrap_idempotent (fs fs3 : FsTree) (root : Str)
    (h : bootstrapDirs fs root = Except.ok fs3) :
    bootstrapDirs fs3 root = Except.ok fs3 := by
  unfold bootstrapDirs at h
  cases h1 : mkdirAll fs (root ++ str "/upload") with
  | error e => simp [h1] at h
  | ok fs1 =>
    simp only [h1] at h
    cases h2 : mkdirAll fs1 (root ++ str "/printed") with
    | error e => simp [h2] at h
    | ok fs2 =>
      simp only [h2] at h
      have hfiles3 : fs3.files = fs.files := by
        rw [mkdirAll_files fs2 fs3 _ h, mkdirAll_files fs1 fs2 _ h2,
          mkdirAll_files fs fs1 _ h1]
      have hu : mkdirAll fs3 (root ++ str "/upload") = Except.ok fs3 := by
        refine mkdirAll_fixed fs3 _ ?_ ?_
        · intro a ha
          exact mkdirAll_dirs_mono fs2 fs3 _ a h
            (mkdirAll_dirs_mono fs1 fs2 _ a h2
              (mkdirAll_dirs_cover fs fs1 _ h1 a ha))
        · rw [hfiles3]
          exact mkdirAll_noFileConflict fs fs1 _ h1
      have hp : mkdirAll fs3 (root ++ str "/printed") = Except.ok fs3 := by
        refine mkdirAll_fixed fs3 _ ?_ ?_
        · intro a ha
          exact mkdirAll_dirs_mono fs2 fs3 _ a h
            (mkdirAll_dirs_cover fs1 fs2 _ h2 a ha)
        · rw [hfiles3, ← mkdirAll_files fs fs1 _ h1]
          exact mkdirAll_noFileConflict fs1 fs2 _ h2
      have hf : mkdirAll fs3 (root ++ str "/failed") = Except.ok fs3 := by
        refine mkdirAll_fixed fs3 _ ?_ ?_
        · intro a ha
          exact mkdirAll_dirs_cover fs2 fs3 _ h a ha
        · rw [hfiles3, ← mkdirAll_files fs fs1 _ h1, ← mkdirAll_files fs1 fs2 _ h2]
          exact mkdirAll_noFileConflict fs2 fs3 _ h
      unfold bootstrapDirs
      simp only [hu, hp, hf]

/-- Witness for the bootstrap-idempotence claim: bootstrap from an empty
filesystem with the default root `./files`, then bootstrap again. -/
theorem bootstrap_idempotent_witness :
    bootstrapDirs cw9Start (str "./files") = Except.ok cw9Done ∧
    bootstrapDirs cw9Done (str "./files") = Except.ok cw9Done :=
  ⟨by rfl, bootstrap_idempotent cw9Start cw9Done (str "./files") (by rfl)⟩

/-- C10: a path without the literal `/upload/` segment is left unchanged by
every destination computation — `strings.Replace` finds nothing to replace —
so on an allow-listed such path both the success and the failure rename of
the PrintDocuments and PrintFile variants rename the file onto itself: the
file never leaves its location even though the attempt resolves. -/
theorem no_upload_segment_renames_onto_self
    (denv : DocsEnv) (fenv : FileEnv) (today : Str) (jId sz : Nat) (file : Str)
    (hno : containsSeg uploadSeg file = false)
    (hacc : accepts file = true)
    (hstat : denv.statRes = Except.ok sz) (hopen : denv.openRes = Except.ok ()) :
    printedDest today jId file = file ∧
    failedDestUnderscore today file = file ∧
    failedDestSlash today file = file ∧
    (printDocsVariant denv file).renames = [(file, file)] ∧
    (printFileVariant fenv file).renames = [(file, file)] := by
  have hr : ∀ new : Str, replaceFirst uploadSeg new file = file := fun new =>
    replaceFirst_eq_self_of_not_contains uploadSeg new file hno
  refine ⟨hr _, hr _, hr _, ?_, ?_⟩
  · cases hsub : denv.submitRes with
    | error e =>
      simp [printDocsVariant, hacc, hstat, hopen, hsub, failedDestUnderscore, hr]
    | ok jId2 =>
      cases hrn : denv.renameRes file file with
      | none => simp [printDocsVariant, hacc, hstat, hopen, hsub, printedDest, hr, hrn]
      | some re => simp [printDocsVariant, hacc, hstat, hopen, hsub, printedDest, hr, hrn]
  · cases hsub : fenv.submitRes with
    | error e =>
      simp [printFileVariant, hacc, hsub, failedDestSlash, hr]
    | ok jId2 =>
      cases hrn : fenv.renameRes file file with
      | none => simp [printFileVariant, hacc, hsub, printedDest, hr, hrn]
      | some re => simp [printFileVariant, hacc, hsub, printedDest, hr, hrn]

/-- Witness for the self-rename claim: `/files/uploads/report.pdf` — note
`uploads`, so the literal `/upload/` segment does not occur. -/
theorem no_upload_segment_renames_onto_self_witness :
    printedDest (str "2024-03-01") 5 (str "/files/uploads/report.pdf")
      = str "/files/uploads/report.pdf" ∧
    failedDestUnderscore (str "2024-03-01") (str "/files/uploads/report.pdf")
      = str "/files/uploads/report.pdf" ∧
    failedDestSlash (str "2024-03-01") (str "/files/uploads/report.pdf")
      = str "/files/uploads/report.pdf" ∧
    (printDocsVariant cw10Docs (str "/files/uploads/report.pdf")).renames
      = [(str "/files/uploads/report.pdf", str "/files/uploads/report.pdf")] ∧
    (printFileVariant cw10File (str "/files/uploads/report.pdf")).renames
      = [(str "/files/uploads/report.pdf", str "/files/uploads/report.pdf")] :=
  no_upload_segment_renames_onto_self cw10Docs cw10File (str "2024-03-01") 5 4
    (str "/files/uploads/report.pdf") (by decide) (by decide) rfl rfl
